import Mathlib

/-!
Verification of the ToDoList application: a Lean shallow embedding of the
Express/Mongoose backend (src/unnamed/part_000) and of the browser client
(src/frontend/script.js), with theorems settling the specified CRUD,
filtering and UI-validation properties.

Conventions of the embedding:
* A Mongo document id is an opaque `String`; the store assigns fresh ids
  from a counter.
* The creation timestamp is a `Nat` drawn from a monotone clock.
* JavaScript `undefined` for an optional request-body field is `Option.none`;
  a field that is present (with any value) is `Option.some`.
* For `String` operands, JavaScript falsiness (`dueDate || "No due date"`)
  means equality with the empty string.
-/

/-- A todo record as stored by the backend and mirrored in the client cache.
JSON shape: id, task, dueDate, completed, createdAt. -/
structure Todo where
  id : String
  task : String
  dueDate : String
  completed : Bool
  createdAt : Nat
deriving Repr, DecidableEq

namespace TodoItemFormatter

/-- `formatTask` from script.js lines 3-5:
`task.length > 14 ? task.slice(0, 14) + "..." : task`. -/
def formatTask (task : String) : String :=
  if task.length > 14 then task.take 14 ++ "..." else task

/-- `formatDueDate` from script.js lines 7-9: `dueDate || "No due date"`;
for strings, falsy means empty. -/
def formatDueDate (dueDate : String) : String :=
  if dueDate = "" then "No due date" else dueDate

/-- `formatStatus` from script.js lines 11-13. -/
def formatStatus (completed : Bool) : String :=
  if completed then "Completed" else "Pending"

end TodoItemFormatter

/-- The client data manager state: the in-memory cached list
(`this.todos` of `TodoManager` in script.js). -/
structure TodoManager where
  todos : List Todo
deriving Repr, DecidableEq

namespace TodoManager

/-- `filterTodos` from script.js lines 119-130: a `switch` on the status
string with cases "all", "pending", "completed" and a default of `[]`. -/
def filterTodos (todos : List Todo) (status : String) : List Todo :=
  if status = "all" then todos
  else if status = "pending" then todos.filter (fun todo => !todo.completed)
  else if status = "completed" then todos.filter (fun todo => todo.completed)
  else []

/-- `filterTodos` viewed as an operation on the manager state: JavaScript
`Array.prototype.filter` returns a fresh array, so the cached list is
returned unchanged alongside the derived view. -/
def filterTodosM (m : TodoManager) (status : String) : List Todo × TodoManager :=
  (filterTodos m.todos status, m)

end TodoManager

/-- Replace the first record whose id matches, as the client does with
`const index = this.todos.findIndex(...); if (index !== -1) this.todos[index] = updatedTodo`
(script.js lines 99-100) and as Mongoose `todo.save()` persists a fetched,
mutated document in place. Records after the first match are untouched. -/
def replaceFirst (todos : List Todo) (id : String) (u : Todo) : List Todo :=
  match todos with
  | [] => []
  | h :: rest => if h.id = id then u :: rest else h :: replaceFirst rest id u

/-- Remove the first record whose id matches, as Mongoose
`findByIdAndDelete` removes the single document with that `_id`. -/
def removeFirst (todos : List Todo) (id : String) : List Todo :=
  match todos with
  | [] => []
  | h :: rest => if h.id = id then rest else h :: removeFirst rest id

/-- Insert `t` into a list already sorted by `createdAt` descending,
keeping the descending order. -/
def insertDesc (t : Todo) : List Todo → List Todo
  | [] => [t]
  | h :: rest =>
    if t.createdAt ≥ h.createdAt then t :: h :: rest else h :: insertDesc t rest

/-- Sort records by `createdAt` descending: the embedding of the MongoDB
query `Todo.find()` sorted by `createdAt: -1` (part_000 line 31). -/
def sortDesc : List Todo → List Todo
  | [] => []
  | h :: rest => insertDesc h (sortDesc rest)

/-- A list is in descending creation-time order (newest first). -/
def SortedDesc (l : List Todo) : Prop :=
  List.Chain' (fun a b => b.createdAt ≤ a.createdAt) l

/-- The backend entity store: the persisted documents, the id counter and
the clock that assigns creation timestamps. -/
structure Store where
  docs : List Todo
  nextId : Nat
  clock : Nat
deriving Repr, DecidableEq

/-- The request body of `PUT /api/todos/:id`: any subset of
task / completed / dueDate. `none` is JavaScript `undefined` (field absent). -/
structure UpdateBody where
  task : Option String := none
  completed : Option Bool := none
  dueDate : Option String := none
deriving Repr, DecidableEq

namespace Store

/-- The store with no documents. -/
def empty : Store := ⟨[], 0, 0⟩

/-- `GET /api/todos` (part_000 lines 29-36): all documents ordered by
creation timestamp descending. -/
def list (s : Store) : List Todo := sortDesc s.docs

/-- `POST /api/todos` (part_000 lines 39-53) together with the Todo schema.
Modelled from the spec: the schema file `models/Todo.js` is not in the
sources, so per the data model the store assigns a fresh immutable
identifier and a monotone creation timestamp and defaults `completed` to
false; the handler stores the submitted `task` and `dueDate` verbatim. -/
def insert (s : Store) (task dueDate : String) : Todo × Store :=
  let t : Todo :=
    { id := toString s.nextId, task := task, dueDate := dueDate,
      completed := false, createdAt := s.clock }
  (t, { docs := s.docs ++ [t], nextId := s.nextId + 1, clock := s.clock + 1 })

/-- Apply the three conditional assignments of the PUT handler
(part_000 lines 61-63): each field is overwritten exactly when it is
present (not `undefined`) in the request body. -/
def applyUpdate (t : Todo) (b : UpdateBody) : Todo :=
  { t with
    task := b.task.getD t.task,
    completed := b.completed.getD t.completed,
    dueDate := b.dueDate.getD t.dueDate }

/-- `PUT /api/todos/:id` (part_000 lines 56-70): find the document by id
(404 when absent), apply the present fields, persist, return the updated
record. The error value is the HTTP status code. -/
def update (s : Store) (id : String) (b : UpdateBody) :
    Except Nat (Todo × Store) :=
  match s.docs.find? (fun t => t.id = id) with
  | none => .error 404
  | some t =>
    let t' := applyUpdate t b
    .ok (t', { s with docs := replaceFirst s.docs id t' })

/-- The response of `DELETE /api/todos/:id`. -/
inductive DeleteResp where
  | deleted
  | notFound
deriving Repr, DecidableEq

/-- HTTP status mapping of the delete handler (part_000 lines 76-77):
not-found maps to 404, success to 200. -/
def DeleteResp.status : DeleteResp → Nat
  | .deleted => 200
  | .notFound => 404

/-- `DELETE /api/todos/:id` (part_000 lines 73-81): `findByIdAndDelete`;
404 and an untouched store when no document has the id. -/
def deleteOne (s : Store) (id : String) : DeleteResp × Store :=
  if s.docs.any (fun t => t.id = id) then
    (.deleted, { s with docs := removeFirst s.docs id })
  else (.notFound, s)

/-- `DELETE /api/todos` (part_000 lines 84-91): `Todo.deleteMany` with the
empty filter removes every document unconditionally. -/
def deleteAll (s : Store) : Store := { s with docs := [] }

/-- Fold a batch of `(task, dueDate)` inserts into the store. -/
def insertAll (s : Store) (inputs : List (String × String)) : Store :=
  inputs.foldl (fun st p => (insert st p.1 p.2).2) s

end Store

/-- The JSON body the client POSTs when adding a task. -/
structure TodoPayload where
  task : String
  dueDate : String
deriving Repr, DecidableEq

/-- The request body built by `TodoManager.addTodo` (script.js lines 37-40):
both fields are passed through the display formatter before the POST. -/
def addTodoPayload (task dueDate : String) : TodoPayload :=
  { task := TodoItemFormatter.formatTask task,
    dueDate := TodoItemFormatter.formatDueDate dueDate }

/-- `TodoManager.addTodo` (script.js lines 36-57) composed with the server
POST handler: the formatted payload is stored by the server, and the client
unshifts the server response onto its cache. Returns the new cache, the new
store and the record the server created. -/
def clientAddTodo (m : TodoManager) (s : Store) (task dueDate : String) :
    TodoManager × Store × Todo :=
  let body := addTodoPayload task dueDate
  let (newTodo, s') := Store.insert s body.task body.dueDate
  (⟨newTodo :: m.todos⟩, s', newTodo)

/-- JavaScript `String.prototype.trim`: strip whitespace from both ends.
Embedded structurally over the character list so that it evaluates by
kernel reduction. -/
def jsTrim (s : String) : String :=
  ⟨List.reverse (List.dropWhile Char.isWhitespace
    (List.reverse (List.dropWhile Char.isWhitespace s.data)))⟩

/-- What the submit-new-task handler did besides updating state. -/
inductive AddOutcome where
  | errorShown
  | added (t : Todo)
deriving Repr, DecidableEq

/-- `UIManager.handleAddTodo` (script.js lines 186-202): trim the input;
on empty text show the error alert and perform no add call, otherwise call
`addTodo` with the trimmed text and the due-date input. -/
def handleAddTodo (m : TodoManager) (s : Store) (input dueDate : String) :
    TodoManager × Store × AddOutcome :=
  let task := jsTrim input
  if task = "" then (m, s, .errorShown)
  else
    let r := clientAddTodo m s task dueDate
    (r.1, r.2.1, .added r.2.2)

/-- `TodoManager.toggleTodoStatus` (script.js lines 88-106). `respond`
models the server round trip for the PUT request with the flipped flag;
the second component counts the network requests issued. When the id is
not in the cache the guard `if (todo)` skips everything and the promise
resolves. -/
def toggleTodoStatus (todos : List Todo) (id : String)
    (respond : Bool → Except String Todo) : Except String (List Todo) × Nat :=
  match todos.find? (fun t => t.id = id) with
  | none => (.ok todos, 0)
  | some t =>
    match respond (!t.completed) with
    | .error e => (.error e, 1)
    | .ok updated => (.ok (replaceFirst todos id updated), 1)

/-- The due-date repopulation of `UIManager.handleEditTodo` (script.js
line 259): the sentinel "No due date" is mapped back to the empty input. -/
def editPopulateDate (stored : String) : String :=
  if stored = "No due date" then "" else stored

/-! ### Helper lemmas -/

theorem insertDesc_length (t : Todo) (l : List Todo) :
    (insertDesc t l).length = l.length + 1 := by
  induction l with
  | nil => rfl
  | cons a rest ih =>
    simp only [insertDesc]
    split <;> simp [ih]

theorem sortDesc_length (l : List Todo) : (sortDesc l).length = l.length := by
  induction l with
  | nil => rfl
  | cons a rest ih => simp [sortDesc, insertDesc_length, ih]

theorem insertDesc_head? (t : Todo) (l : List Todo) :
    (insertDesc t l).head? = some t ∨ (insertDesc t l).head? = l.head? := by
  cases l with
  | nil => exact Or.inl rfl
  | cons a rest =>
    simp only [insertDesc]
    split
    · exact Or.inl rfl
    · exact Or.inr rfl

theorem insertDesc_sorted (t : Todo) (l : List Todo) (h : SortedDesc l) :
    SortedDesc (insertDesc t l) := by
  induction l with
  | nil => simp [insertDesc, SortedDesc]
  | cons a rest ih =>
    simp only [insertDesc]
    split
    case isTrue hge =>
      exact List.Chain'.cons hge h
    case isFalse hlt =>
      have hrest : SortedDesc rest := List.Chain'.tail h
      have hins := ih hrest
      refine List.chain'_cons'.mpr ⟨?_, hins⟩
      intro y hy
      rcases insertDesc_head? t rest with hh | hh
      · rw [hh] at hy
        cases hy
        exact Nat.le_of_not_le hlt
      · rw [hh] at hy
        exact (List.chain'_cons'.mp h).1 y hy

theorem sortDesc_sorted (l : List Todo) : SortedDesc (sortDesc l) := by
  induction l with
  | nil => exact List.chain'_nil
  | cons a rest ih => exact insertDesc_sorted a (sortDesc rest) ih

theorem insertAll_docs_length (inputs : List (String × String)) :
    ∀ s : Store, (Store.insertAll s inputs).docs.length =
      s.docs.length + inputs.length := by
  induction inputs with
  | nil => intro s; rfl
  | cons p rest ih =>
    intro s
    show (Store.insertAll (Store.insert s p.1 p.2).2 rest).docs.length = _
    rw [ih]
    simp [Store.insert]
    omega

theorem mem_replaceFirst (l : List Todo) (id : String) (u x : Todo)
    (hx : x ∈ replaceFirst l id u) : x = u ∨ x ∈ l := by
  induction l with
  | nil => simp [replaceFirst] at hx
  | cons a rest ih =>
    simp only [replaceFirst] at hx
    split at hx
    · rcases List.mem_cons.mp hx with h | h
      · exact Or.inl h
      · exact Or.inr (List.mem_cons_of_mem a h)
    · rcases List.mem_cons.mp hx with h | h
      · exact Or.inr (h ▸ List.mem_cons_self a rest)
      · rcases ih h with h2 | h2
        · exact Or.inl h2
        · exact Or.inr (List.mem_cons_of_mem a h2)

/-! ### Claim theorems -/

/-- C1: the claim says the stored task text always equals the submitted
text in full, truncation being applied only at render time. The code
refutes this: `TodoManager.addTodo` passes the task through the display
truncation `formatTask` before the POST, so submitting the 15-character
task "abcdefghijklmno" stores (and caches) the truncated
"abcdefghijklmn..." instead of the submitted text. -/
theorem addTodo_truncates_before_store :
    (addTodoPayload "abcdefghijklmno" "2024-01-01").task = "abcdefghijklmn..." ∧
    (clientAddTodo ⟨[]⟩ Store.empty "abcdefghijklmno" "2024-01-01").2.2.task =
      "abcdefghijklmn..." ∧
    ("abcdefghijklmn..." : String) ≠ "abcdefghijklmno" :=
  ⟨rfl, rfl, by decide⟩

/-- C3: on any cache, filtering by "pending" yields exactly the records
with completed = false and filtering by "completed" exactly those with
completed = true, both as order-preserving sublists of the cache, and no
filter call changes the manager's cached list. -/
theorem filterTodos_partition (m : TodoManager) :
    (m.filterTodosM "pending").1 = m.todos.filter (fun t => !t.completed) ∧
    (m.filterTodosM "completed").1 = m.todos.filter (fun t => t.completed) ∧
    (∀ t, t ∈ (m.filterTodosM "pending").1 ↔ t ∈ m.todos ∧ t.completed = false) ∧
    (∀ t, t ∈ (m.filterTodosM "completed").1 ↔ t ∈ m.todos ∧ t.completed = true) ∧
    List.Sublist (m.filterTodosM "pending").1 m.todos ∧
    List.Sublist (m.filterTodosM "completed").1 m.todos ∧
    (∀ status, (m.filterTodosM status).2 = m) := by
  refine ⟨?_, ?_, ?_, ?_, ?_, ?_, fun _ => rfl⟩ <;>
    simp [TodoManager.filterTodosM, TodoManager.filterTodos,
      List.mem_filter, List.filter_sublist]

/-- C5: after `deleteAll` the listing is empty whatever the prior store
contents were, and a second `deleteAll` succeeds and changes nothing. -/
theorem deleteAll_empties_and_idempotent (s : Store) :
    Store.list (Store.deleteAll s) = [] ∧
    Store.deleteAll (Store.deleteAll s) = Store.deleteAll s :=
  ⟨rfl, rfl⟩

/-- C9: for any status string other than "all", "pending" and "completed",
`filterTodos` falls through to the default case and returns the empty
list, whatever the cache contains. -/
theorem filterTodos_unknown_status (todos : List Todo) (status : String)
    (h1 : status ≠ "all") (h2 : status ≠ "pending")
    (h3 : status ≠ "completed") :
    TodoManager.filterTodos todos status = [] := by
  simp [TodoManager.filterTodos, h1, h2, h3]

/-- C9 witness: the unknown status "banana" filters a nonempty cache to
the empty list. -/
theorem filterTodos_unknown_status_witness :
    TodoManager.filterTodos [⟨"1", "a", "d", true, 0⟩] "banana" = [] :=
  filterTodos_unknown_status [⟨"1", "a", "d", true, 0⟩] "banana"
    (by decide) (by decide) (by decide)

/-- C2: when the id is present, `update` succeeds and the updated record
keeps every field the request body omits, takes the body's value for every
field it contains, never changes id or creation timestamp, and every other
stored record is left as it was. -/
theorem update_applies_only_present_fields (s : Store) (id : String)
    (b : UpdateBody) (r : Todo)
    (hfind : s.docs.find? (fun t => t.id = id) = some r) :
    ∃ r' s', Store.update s id b = .ok (r', s') ∧
      (b.task = none → r'.task = r.task) ∧
      (b.completed = none → r'.completed = r.completed) ∧
      (b.dueDate = none → r'.dueDate = r.dueDate) ∧
      (∀ v, b.task = some v → r'.task = v) ∧
      (∀ v, b.completed = some v → r'.completed = v) ∧
      (∀ v, b.dueDate = some v → r'.dueDate = v) ∧
      r'.id = r.id ∧ r'.createdAt = r.createdAt ∧
      (∀ t ∈ s'.docs, t.id ≠ id → t ∈ s.docs) := by
  have hid : r.id = id := by
    have := List.find?_some hfind
    simpa using this
  refine ⟨Store.applyUpdate r b,
    { s with docs := replaceFirst s.docs id (Store.applyUpdate r b) },
    ?_, ?_, ?_, ?_, ?_, ?_, ?_, rfl, rfl, ?_⟩
  · simp [Store.update, hfind]
  · intro h; simp [Store.applyUpdate, h]
  · intro h; simp [Store.applyUpdate, h]
  · intro h; simp [Store.applyUpdate, h]
  · intro v h; simp [Store.applyUpdate, h]
  · intro v h; simp [Store.applyUpdate, h]
  · intro v h; simp [Store.applyUpdate, h]
  · intro t ht hne
    rcases mem_replaceFirst s.docs id (Store.applyUpdate r b) t ht with h | h
    · exact absurd (h ▸ hid) hne
    · exact h

/-- C2 witness: updating id "0" with only the completed field set flips
completed and keeps task and due date. -/
theorem update_applies_only_present_fields_witness :
    ∃ r' s',
      Store.update ⟨[⟨"0", "Buy milk", "2024-01-01", false, 0⟩], 1, 1⟩ "0"
        { completed := some true } = .ok (r', s') ∧
      r'.task = "Buy milk" ∧ r'.completed = true ∧
      r'.dueDate = "2024-01-01" ∧ r'.id = "0" := by
  obtain ⟨r', s', hok, htask, -, hdue, -, hcomp, -, hid, -, -⟩ :=
    update_applies_only_present_fields
      ⟨[⟨"0", "Buy milk", "2024-01-01", false, 0⟩], 1, 1⟩ "0"
      { completed := some true } ⟨"0", "Buy milk", "2024-01-01", false, 0⟩
      (by rfl)
  exact ⟨r', s', hok, htask rfl, hcomp true rfl, hdue rfl, hid⟩

/-- C4: deleting an id held by no stored record answers not-found, which
the handler maps to HTTP 404, and returns the store exactly as it was, so
its size is unchanged. -/
theorem deleteOne_absent_not_found (s : Store) (id : String)
    (h : ∀ t ∈ s.docs, t.id ≠ id) :
    Store.deleteOne s id = (.notFound, s) ∧
    (Store.deleteOne s id).1.status = 404 ∧
    (Store.deleteOne s id).2.docs.length = s.docs.length := by
  have hany : s.docs.any (fun t => t.id = id) = false := by
    simp only [List.any_eq_false, decide_eq_true_eq]
    exact h
  have hmain : Store.deleteOne s id = (.notFound, s) := by
    simp [Store.deleteOne, hany]
  exact ⟨hmain, by rw [hmain]; rfl, by rw [hmain]⟩

/-- C4 witness: deleting the absent id "zzz" from a one-record store
returns 404 and the store untouched. -/
theorem deleteOne_absent_not_found_witness :
    Store.deleteOne ⟨[⟨"0", "a", "d", false, 0⟩], 1, 1⟩ "zzz" =
      (.notFound, ⟨[⟨"0", "a", "d", false, 0⟩], 1, 1⟩) ∧
    (Store.deleteOne ⟨[⟨"0", "a", "d", false, 0⟩], 1, 1⟩ "zzz").1.status = 404 ∧
    (Store.deleteOne ⟨[⟨"0", "a", "d", false, 0⟩], 1, 1⟩ "zzz").2.docs.length =
      (⟨[⟨"0", "a", "d", false, 0⟩], 1, 1⟩ : Store).docs.length :=
  deleteOne_absent_not_found ⟨[⟨"0", "a", "d", false, 0⟩], 1, 1⟩ "zzz"
    (by decide)

/-- C6: starting from the empty store, any sequence of N inserts with no
deletes makes `list` return exactly N records in descending creation-time
order (newest first). -/
theorem list_after_inserts (inputs : List (String × String)) :
    (Store.list (Store.insertAll Store.empty inputs)).length = inputs.length ∧
    SortedDesc (Store.list (Store.insertAll Store.empty inputs)) := by
  constructor
  · rw [Store.list, sortDesc_length, insertAll_docs_length]
    simp [Store.empty]
  · exact sortDesc_sorted _

/-- C7: the submit-new-task handler adds nothing and shows the error
outcome whenever the input trims to the empty string, leaving cache and
store untouched; on any other input it calls add with the trimmed text. -/
theorem handleAddTodo_validation (m : TodoManager) (s : Store)
    (input dueDate : String) :
    (jsTrim input = "" → handleAddTodo m s input dueDate = (m, s, .errorShown)) ∧
    (jsTrim input ≠ "" →
      handleAddTodo m s input dueDate =
        ((clientAddTodo m s (jsTrim input) dueDate).1,
         (clientAddTodo m s (jsTrim input) dueDate).2.1,
         .added (clientAddTodo m s (jsTrim input) dueDate).2.2)) := by
  constructor
  · intro h; simp [handleAddTodo, h]
  · intro h; simp [handleAddTodo, h]

/-- C7 witness: whitespace-only input is rejected without touching the
state, while an input trimming to "hi" is added with exactly that text. -/
theorem handleAddTodo_validation_witness :
    handleAddTodo ⟨[]⟩ Store.empty "   " "d" =
      (⟨[]⟩, Store.empty, .errorShown) ∧
    handleAddTodo ⟨[]⟩ Store.empty " hi " "d" =
      ((clientAddTodo ⟨[]⟩ Store.empty "hi" "d").1,
       (clientAddTodo ⟨[]⟩ Store.empty "hi" "d").2.1,
       .added (clientAddTodo ⟨[]⟩ Store.empty "hi" "d").2.2) := by
  constructor
  · exact (handleAddTodo_validation ⟨[]⟩ Store.empty "   " "d").1 (by decide)
  · have h := (handleAddTodo_validation ⟨[]⟩ Store.empty " hi " "d").2 (by decide)
    rw [show jsTrim " hi " = "hi" by decide] at h
    exact h

/-- C8: adding with an empty due date sends and stores the sentinel
"No due date" (a value distinct from the empty string), the new record
sits at the head of the cache, and the edit handler maps the sentinel
back to the empty input. -/
theorem addTodo_empty_dueDate_sentinel (m : TodoManager) (s : Store)
    (task : String) :
    (addTodoPayload task "").dueDate = "No due date" ∧
    (clientAddTodo m s task "").2.2.dueDate = "No due date" ∧
    (clientAddTodo m s task "").1.todos.head? =
      some (clientAddTodo m s task "").2.2 ∧
    ("No due date" : String) ≠ "" ∧
    editPopulateDate "No due date" = "" := by
  refine ⟨rfl, rfl, rfl, by decide, rfl⟩

/-- C10: toggling an id that is not in the client cache issues zero
network requests, resolves successfully, and leaves the cache exactly as
it was, for every possible server behavior. -/
theorem toggleTodoStatus_absent_id (todos : List Todo) (id : String)
    (respond : Bool → Except String Todo)
    (h : ∀ t ∈ todos, t.id ≠ id) :
    toggleTodoStatus todos id respond = (.ok todos, 0) := by
  have hfind : todos.find? (fun t => t.id = id) = none :=
    List.find?_eq_none.mpr (by simpa using h)
  simp [toggleTodoStatus, hfind]

/-- C10 witness: toggling the absent id "zzz" against a server that would
fail every request still resolves with the untouched cache and zero
requests. -/
theorem toggleTodoStatus_absent_id_witness :
    toggleTodoStatus [⟨"1", "a", "d", false, 0⟩] "zzz"
      (fun _ => .error "network down") =
      (.ok [⟨"1", "a", "d", false, 0⟩], 0) :=
  toggleTodoStatus_absent_id [⟨"1", "a", "d", false, 0⟩] "zzz"
    (fun _ => .error "network down") (by decide)
